import Mathlib

/-!
Shallow embedding of the go-capjs challenge engine and its SQLite storage
driver, with theorems checking the repository's specification claims.

Sources embedded:
- `cap/util.go`: `fnv1a`, `prng` (the deterministic derivation function, DDF)
  and `IpToInt64` (rate-limit IP truncation).
- `cap/cap.go`: `Cap.VerifyChallengeSolutions` over the abstract `Driver`
  interface of `cap/driver.go`.
- `sqlitedriver/driver.go`: the row-level semantics of the prepared SQL
  statements and the `Store`, `GetUnredeemedChallenge` and `UseRedeemToken`
  methods over an explicit table state (a list of rows).

Modelling conventions:
- Go `uint32` arithmetic is `Nat` arithmetic reduced `% 2^32` wherever the
  source wraps; `int64` results are `Int` with explicit two's-complement
  wrapping.
- Go strings are Lean `String`s; character-level work happens on `.data`
  (Go slicing/iteration here only ever touches ASCII data).
- A Go function that can panic is modelled with `Option` (`none` = panic).
- SQL prepared statements are modelled by the row-level semantics of their
  WHERE/SET clauses over the table state, plus the number of `?` parameter
  markers versus the number of arguments the call site binds (the
  `database/sql` runtime rejects a mismatched execution).  SQL parse-time
  validity of the statement text is not modelled.
- `time.Now()` is modelled by passing the current Unix-seconds value `now`
  explicitly where the source reads the clock.
-/

set_option maxRecDepth 40000

/-! ## Generic character/byte helpers -/

/-- Lowercase hexadecimal digit for a nibble value (0-15 ⇒ `0`-`9`, `a`-`f`). -/
def hexDigitChar (n : Nat) : Char :=
  if n < 10 then Char.ofNat (48 + n) else Char.ofNat (87 + n)

/-- Whether a character is in the alphabet `[0-9a-f]`. -/
def isLowerHexDigit (c : Char) : Bool :=
  decide ((48 ≤ c.toNat ∧ c.toNat ≤ 57) ∨ (97 ≤ c.toNat ∧ c.toNat ≤ 102))

/-- The 8 lowercase hex digits of a 32-bit value, most significant nibble
first; models Go `fmt.Sprintf("%08x", x)` for a `uint32` argument. -/
def toHex8 (x : Nat) : List Char :=
  [hexDigitChar ((x >>> 28) &&& 15), hexDigitChar ((x >>> 24) &&& 15),
   hexDigitChar ((x >>> 20) &&& 15), hexDigitChar ((x >>> 16) &&& 15),
   hexDigitChar ((x >>> 12) &&& 15), hexDigitChar ((x >>> 8) &&& 15),
   hexDigitChar ((x >>> 4) &&& 15), hexDigitChar (x &&& 15)]

/-- Character-list version of Go `strings.HasPrefix`. -/
def startsWithChars : List Char → List Char → Bool
  | _, [] => true
  | [], _ :: _ => false
  | a :: s, b :: p => a == b && startsWithChars s p

/-- Models Go `strings.HasPrefix s p`. -/
def goStartsWith (s p : String) : Bool := startsWithChars s.data p.data

/-- UTF-16 code units of a character sequence; models Go
`utf16.Encode([]rune(str))` (Lean `Char` excludes surrogates, so the
replacement-character branch of the Go encoder is unreachable). -/
def utf16CodeUnits : List Char → List Nat
  | [] => []
  | c :: rest =>
    let v := c.toNat
    if v < 0x10000 then v :: utf16CodeUnits rest
    else (0xD800 + (v - 0x10000) / 0x400) :: (0xDC00 + (v - 0x10000) % 0x400) :: utf16CodeUnits rest

/-- UTF-8 bytes of one character; models Go's `[]byte(string)` conversion
per code point. -/
def utf8CharBytes (c : Char) : List Nat :=
  let v := c.toNat
  if v < 0x80 then [v]
  else if v < 0x800 then [0xC0 + v / 0x40, 0x80 + v % 0x40]
  else if v < 0x10000 then [0xE0 + v / 0x1000, 0x80 + v / 0x40 % 0x40, 0x80 + v % 0x40]
  else [0xF0 + v / 0x40000, 0x80 + v / 0x1000 % 0x40, 0x80 + v / 0x40 % 0x40, 0x80 + v % 0x40]

/-- UTF-8 bytes of a character list. -/
def utf8List : List Char → List Nat
  | [] => []
  | c :: rest => utf8CharBytes c ++ utf8List rest

/-- UTF-8 bytes of a string; models Go `[]byte(s)`. -/
def utf8Bytes (s : String) : List Nat := utf8List s.data

/-- Lowercase hex rendering of a byte list. -/
def hexEncodeBytes : List Nat → List Char
  | [] => []
  | b :: rest => hexDigitChar ((b >>> 4) &&& 15) :: hexDigitChar (b &&& 15) :: hexEncodeBytes rest

/-- Models Go `hex.EncodeToString`. -/
def hexEncode (bytes : List Nat) : String := String.mk (hexEncodeBytes bytes)

/-- Decimal string of a natural number; models Go `strconv.FormatInt(v, 10)`
and `fmt.Sprintf("%d", v)` for non-negative `v`. -/
def decimalString (n : Nat) : String := Nat.repr n

/-! ## DDF: cap/util.go `fnv1a` and `prng` -/

/-- The 32-bit modulus. -/
def M32 : Nat := 2 ^ 32

/-- One step of the FNV-1a loop body (`cap/util.go:17-20`):
`hash ^= uint32(codeUnit); hash += (hash<<1)+(hash<<4)+(hash<<7)+(hash<<8)+(hash<<24)`,
all in `uint32` arithmetic (the shift-sum is multiplication by the FNV prime
16777619). -/
def fnv1aStep (hash codeUnit : Nat) : Nat :=
  let h := Nat.xor hash codeUnit
  (h + ((h <<< 1) % M32 + (h <<< 4) % M32 + (h <<< 7) % M32 + (h <<< 8) % M32 + (h <<< 24) % M32)) % M32

/-- `cap/util.go:12-22`: FNV-1a over the UTF-16 code units of the string,
offset basis 2166136261. -/
def fnv1a (str : String) : Nat :=
  (utf16CodeUnits str.data).foldl fnv1aStep 2166136261

/-- `cap/util.go:31-36`: the xorshift32 state transform
`x ^= x<<13; x ^= x>>17; x ^= x<<5` in `uint32` arithmetic. -/
def xorshift32 (x : Nat) : Nat :=
  let x1 := Nat.xor x ((x <<< 13) % M32)
  let x2 := Nat.xor x1 (x1 >>> 17)
  Nat.xor x2 ((x2 <<< 5) % M32)

/-- Characters produced by `n` iterations of the `prng` loop body starting
from `state`: each iteration advances the state and appends its 8 hex
digits. -/
def hexBlocks (state : Nat) : Nat → List Char
  | 0 => []
  | n + 1 => toHex8 (xorshift32 state) ++ hexBlocks (xorshift32 state) n

/-- `cap/util.go:27-45` (`prng`): deterministic hex string of the given
length from a string seed.  The Go loop appends 8 hex digits per iteration
while the accumulated length is below `length`, so it runs exactly
`(length + 7) / 8` times; the result is then truncated to `length`
(`result.String()[:length]`).  Theorem `prng_eq_goPrngLoop` proves this
definition equal to the literal while-loop `goPrngLoop`. -/
def prng (seed : String) (length : Nat) : String :=
  String.mk ((hexBlocks (fnv1a seed) ((length + 7) / 8)).take length)

/-- The literal while-loop of `cap/util.go:38-42`, recursing while
`result.Len() < length`. -/
def goPrngLoop (state : Nat) (acc : List Char) (length : Nat) : List Char :=
  if acc.length < length then
    let st := xorshift32 state
    goPrngLoop st (acc ++ toHex8 st) length
  else acc
termination_by length - acc.length
decreasing_by
  have h8 : (toHex8 (xorshift32 state)).length = 8 := rfl
  simp only [List.length_append, h8]
  omega

/-! ## SHA-256 (crypto/sha256, FIPS 180-4) -/

/-- Right rotation of a 32-bit value. -/
def rotr32 (x k : Nat) : Nat := ((x >>> k) ||| (x <<< (32 - k))) % M32

def bigSigma0 (x : Nat) : Nat := Nat.xor (rotr32 x 2) (Nat.xor (rotr32 x 13) (rotr32 x 22))

def bigSigma1 (x : Nat) : Nat := Nat.xor (rotr32 x 6) (Nat.xor (rotr32 x 11) (rotr32 x 25))

def smallSigma0 (x : Nat) : Nat := Nat.xor (rotr32 x 7) (Nat.xor (rotr32 x 18) (x >>> 3))

def smallSigma1 (x : Nat) : Nat := Nat.xor (rotr32 x 17) (Nat.xor (rotr32 x 19) (x >>> 10))

/-- SHA-256 choice function (`(x AND y) XOR (NOT x AND z)` on 32 bits). -/
def chFn (x y z : Nat) : Nat := Nat.xor (Nat.land x y) (Nat.land ((M32 - 1) - x) z)

def majFn (x y z : Nat) : Nat := Nat.xor (Nat.land x y) (Nat.xor (Nat.land x z) (Nat.land y z))

/-- The 64 SHA-256 round constants. -/
def sha256K : List Nat :=
  [1116352408, 1899447441, 3049323471, 3921009573, 961987163, 1508970993,
   2453635748, 2870763221, 3624381080, 310598401, 607225278, 1426881987,
   1925078388, 2162078206, 2614888103, 3248222580, 3835390401, 4022224774,
   264347078, 604807628, 770255983, 1249150122, 1555081692, 1996064986,
   2554220882, 2821834349, 2952996808, 3210313671, 3336571891, 3584528711,
   113926993, 338241895, 666307205, 773529912, 1294757372, 1396182291,
   1695183700, 1986661051, 2177026350, 2456956037, 2730485921, 2820302411,
   3259730800, 3345764771, 3516065817, 3600352804, 4094571909, 275423344,
   430227734, 506948616, 659060556, 883997877, 958139571, 1322822218,
   1537002063, 1747873779, 1955562222, 2024104815, 2227730452, 2361852424,
   2428436474, 2756734187, 3204031479, 3329325298]

/-- Message padding: append `0x80`, zeros until the length is 56 mod 64,
then the bit length as an 8-byte big-endian integer. -/
def sha256Pad (msg : List Nat) : List Nat :=
  let bitLen := msg.length * 8
  let padZeros := (64 + 56 - (msg.length + 1) % 64) % 64
  msg ++ [0x80] ++ List.replicate padZeros 0 ++
    [(bitLen >>> 56) % 256, (bitLen >>> 48) % 256, (bitLen >>> 40) % 256, (bitLen >>> 32) % 256,
     (bitLen >>> 24) % 256, (bitLen >>> 16) % 256, (bitLen >>> 8) % 256, bitLen % 256]

/-- Group bytes into big-endian 32-bit words. -/
def bytesToWords : List Nat → List Nat
  | b0 :: b1 :: b2 :: b3 :: rest => (((b0 * 256 + b1) * 256 + b2) * 256 + b3) :: bytesToWords rest
  | _ => []

/-- Extend the 16 words of a chunk by `rounds` further schedule words. -/
def extendSchedule (w : List Nat) : Nat → List Nat
  | 0 => w
  | r + 1 =>
    let n := w.length
    let nw := (smallSigma1 (w.getD (n - 2) 0) + w.getD (n - 7) 0 +
               smallSigma0 (w.getD (n - 15) 0) + w.getD (n - 16) 0) % M32
    extendSchedule (w ++ [nw]) r

/-- One SHA-256 compression round on the 8-word state, consuming a
(round-constant, schedule-word) pair. -/
def sha256Round (st : Nat × Nat × Nat × Nat × Nat × Nat × Nat × Nat) (kw : Nat × Nat) :
    Nat × Nat × Nat × Nat × Nat × Nat × Nat × Nat :=
  match st with
  | (a, b, c, d, e, f, g, h) =>
    let t1 := (h + bigSigma1 e + chFn e f g + kw.1 + kw.2) % M32
    let t2 := (bigSigma0 a + majFn a b c) % M32
    ((t1 + t2) % M32, a, b, c, (d + t1) % M32, e, f, g)

/-- Compress one 64-byte chunk into the running 8-word hash state. -/
def sha256Chunk (h : List Nat) (chunk : List Nat) : List Nat :=
  let w := extendSchedule (bytesToWords chunk) 48
  let init := (h.getD 0 0, h.getD 1 0, h.getD 2 0, h.getD 3 0,
               h.getD 4 0, h.getD 5 0, h.getD 6 0, h.getD 7 0)
  match (sha256K.zip w).foldl sha256Round init with
  | (a, b, c, d, e, f, g, hh) =>
    [(h.getD 0 0 + a) % M32, (h.getD 1 0 + b) % M32, (h.getD 2 0 + c) % M32,
     (h.getD 3 0 + d) % M32, (h.getD 4 0 + e) % M32, (h.getD 5 0 + f) % M32,
     (h.getD 6 0 + g) % M32, (h.getD 7 0 + hh) % M32]

/-- Process the given number of 64-byte chunks of the padded message. -/
def sha256Iter (h : List Nat) (bytes : List Nat) : Nat → List Nat
  | 0 => h
  | k + 1 => sha256Iter (sha256Chunk h (bytes.take 64)) (bytes.drop 64) k

/-- The SHA-256 initial hash values. -/
def sha256H0 : List Nat :=
  [1779033703, 3144134277, 1013904242, 2773480762,
   1359893119, 2600822924, 528734635, 1541459225]

/-- Big-endian bytes of a 32-bit word list. -/
def wordsToBytes : List Nat → List Nat
  | [] => []
  | w :: rest => (w >>> 24) % 256 :: (w >>> 16) % 256 :: (w >>> 8) % 256 :: w % 256 :: wordsToBytes rest

/-- SHA-256 digest (32 bytes) of a byte list; models Go's `crypto/sha256`.
Checked against the FIPS 180-4 test vectors in `sha256_empty_vector` and
`sha256_abc_vector`. -/
def sha256 (msg : List Nat) : List Nat :=
  let padded := sha256Pad msg
  wordsToBytes (sha256Iter sha256H0 padded (padded.length / 64))

/-! ## cap/cap.go data model and the Driver contract of cap/driver.go -/

/-- `cap/cap.go:65-74` (`ChallengeParams`).  The Go fields are `int`; the
challenge lifecycle only ever carries non-negative values (negative counts
or sizes make the Go code panic in `make`/slicing before any comparison the
claims are about), so they are modelled as `Nat`. -/
structure ChallengeParams where
  Difficulty : Nat
  Count : Nat
  SaltSize : Nat
deriving DecidableEq, Repr

/-- `cap/cap.go:38-52` (`Challenge`).  `Expires` is the Unix-seconds value
of the Go `time.Time` (the SQLite driver stores and reloads it via
`.Unix()` / `time.Unix`). -/
structure Challenge where
  ChallengeToken : String
  RedeemToken : String
  Params : ChallengeParams
  Expires : Int
deriving DecidableEq, Repr

/-- `cap/cap.go:148-151` (`RedeemData`). -/
structure RedeemData where
  RedeemToken : String
  Expires : Int
deriving DecidableEq, Repr

/-- `cap/cap.go:142-145` (`VerifySolutionsRequest`).  `Solutions` is
`[]uint32` in Go; entries are modelled as `Nat` (the code only ever formats
an entry in decimal, which agrees with Go for all `uint32` values). -/
structure VerifySolutionsRequest where
  ChallengeToken : String
  Solutions : List Nat
deriving DecidableEq, Repr

/-- Outcome of `Driver.Store` (`cap/driver.go:25` and the error contract of
`Store`): success, `cap.ErrRateLimited`, or a panic inside the call
(modelled explicitly because `IpToInt64` can panic). -/
inductive StoreResult
  | ok
  | rateLimited
  | panicked
deriving DecidableEq, Repr

/-- Outcome of `Driver.GetUnredeemedChallenge` (`cap/driver.go:28-32`):
`(challenge-or-nil, nil)` or `(nil, err)`. -/
inductive FetchResult
  | ok (c : Option Challenge)
  | err (msg : String)
deriving DecidableEq, Repr

/-- IP address as seen by `IpToInt64` (`net/netip.Addr`): either 4 bytes
(`As4`) or 16 bytes (`As16`, fixed length). -/
inductive IpAddr
  | v4 (b0 b1 b2 b3 : Nat)
  | v6 (b0 b1 b2 b3 b4 b5 b6 b7 b8 b9 b10 b11 b12 b13 b14 b15 : Nat)
deriving DecidableEq, Repr

/-- The `Driver` interface of `cap/driver.go:18-40` as a record of state
transformers over an abstract storage state `σ`: each method may observe and
replace the state and returns the Go results. -/
structure DriverOps (σ : Type) where
  Store : σ → Challenge → Option IpAddr → σ × StoreResult
  GetUnredeemedChallenge : σ → String → σ × FetchResult
  UseRedeemToken : σ → String → σ × Bool

/-- Result of `Cap.VerifyChallengeSolutions` (`cap/cap.go:153-166`): the
redeem data, a propagated driver error, or one of the three distinguished
error values `ErrChallengeNotFound`, `ErrInsufficientSolutions`,
`ErrInvalidSolution`. -/
inductive VerifyResult
  | ok (rd : RedeemData)
  | errDriver (msg : String)
  | errChallengeNotFound
  | errInsufficientSolutions
  | errInvalidSolution
deriving DecidableEq, Repr

/-- `cap/cap.go:188-195`: the per-position `(Salt, Target)` tuples, where
position `i` (0-based) uses seed `token + decimal(i+1)` for the salt and
seed `token + decimal(i+1) + "d"` for the target. -/
def challengeTuples (token : String) (count saltSize difficulty : Nat) : List (String × String) :=
  (List.range count).map (fun i =>
    (prng (token ++ decimalString (i + 1)) saltSize,
     prng (token ++ decimalString (i + 1) ++ "d") difficulty))

/-- `cap/cap.go:204-207`: lowercase-hex SHA-256 of the salt bytes followed
by the decimal rendering of the solution. -/
def solutionHashHex (salt : String) (solution : Nat) : String :=
  hexEncode (sha256 (utf8Bytes salt ++ utf8Bytes (decimalString solution)))

/-- `cap/cap.go:197-213`: the verification loop.  `i` tracks the position in
`solutions` (`req.Solutions[i]`); the loop stops at the first failing
position (`isValid = false; break`). -/
def checkLoop (solutions : List Nat) : Nat → List (String × String) → Bool
  | _, [] => true
  | i, (salt, target) :: rest =>
    if goStartsWith (solutionHashHex salt (solutions.getD i 0)) target then
      checkLoop solutions (i + 1) rest
    else false

/-- The per-position acceptance formula of the specification (§4.3 steps
3-4): position `i` (0-based) passes iff the hex SHA-256 of
`DDF(token + decimal(i+1), saltSize) || decimal(solution)` starts with
`DDF(token + decimal(i+1) + "d", difficulty)`. -/
def solutionOk (token : String) (params : ChallengeParams) (i : Nat) (solution : Nat) : Bool :=
  goStartsWith
    (solutionHashHex (prng (token ++ decimalString (i + 1)) params.SaltSize) solution)
    (prng (token ++ decimalString (i + 1) ++ "d") params.Difficulty)

namespace Cap

/-- `cap/cap.go:166-224` (`Cap.VerifyChallengeSolutions`): fetch the
unredeemed challenge through the driver, then check the solutions.  The
driver is the abstract `DriverOps` record the `Cap` struct holds. -/
def VerifyChallengeSolutions {σ : Type} (d : DriverOps σ) (s : σ) (req : VerifySolutionsRequest) :
    σ × VerifyResult :=
  match d.GetUnredeemedChallenge s req.ChallengeToken with
  | (s1, FetchResult.err e) => (s1, VerifyResult.errDriver e)
  | (s1, FetchResult.ok none) => (s1, VerifyResult.errChallengeNotFound)
  | (s1, FetchResult.ok (some src)) =>
    let params := src.Params
    let count := params.Count
    if req.Solutions.length < count then (s1, VerifyResult.errInsufficientSolutions)
    else
      let token := src.ChallengeToken
      let challenges := challengeTuples token count params.SaltSize params.Difficulty
      let isValid := checkLoop req.Solutions 0 challenges
      if !isValid then (s1, VerifyResult.errInvalidSolution)
      else (s1, VerifyResult.ok ⟨src.RedeemToken, src.Expires⟩)

end Cap

/-! ## cap/util.go `IpToInt64` -/

/-- The write loop of `IpToInt64` over the source address bytes: starting at
index `i`, it breaks once `i >= byteCount` and otherwise writes the byte at
offset `off + i` of the 8-byte buffer `be` (`beBytes[i]` for IPv6 with
`off = 0`, `beBytes[i+4]` for IPv4 with `off = 4`).  Writing past the buffer
is an out-of-range index panic, modelled as `none`. -/
def beWriteLoop (be : List Nat) (off : Nat) (byteCount : Int) (i : Nat) : List Nat → Option (List Nat)
  | [] => some be
  | b :: rest =>
    if (i : Int) ≥ byteCount then some be
    else if off + i < be.length then beWriteLoop (be.set (off + i) b) off byteCount (i + 1) rest
    else none

/-- Big-endian `uint64` value of an 8-byte buffer
(`binary.BigEndian.Uint64`). -/
def beUint64 (be : List Nat) : Nat := be.foldl (fun acc b => acc * 256 + b) 0

/-- Go `int64(u)` for a `uint64` value: two's-complement wrap into `Int`. -/
def int64OfUint64 (n : Nat) : Int :=
  if n % 2 ^ 64 < 2 ^ 63 then ((n % 2 ^ 64 : Nat) : Int) else ((n % 2 ^ 64 : Nat) : Int) - 2 ^ 64

/-- `cap/util.go:55-89` (`IpToInt64`): keep the first
`significantBits / 8` bytes of the address, zero the rest, and pack the
8-byte buffer as a big-endian `int64` (IPv4 bytes sit in the low 4 buffer
bytes, IPv6 bytes in all 8).  The bits parameters are Go `int`s and the
byte count uses Go's truncated division.  The `if byteCount > 64 { }` guard
in the IPv6 branch has an empty body, so nothing clamps `byteCount` and a
value above 8 drives the write loop past the 8-byte buffer: `none` models
that index-out-of-range panic. -/
def IpToInt64 (addr : IpAddr) (ipVSignificantBits ipV6SignificantBits : Int) : Option (Int × Int) :=
  match addr with
  | .v6 b0 b1 b2 b3 b4 b5 b6 b7 b8 b9 b10 b11 b12 b13 b14 b15 =>
    let byteCount := Int.tdiv ipV6SignificantBits 8
    (beWriteLoop (List.replicate 8 0) 0 byteCount 0
        [b0, b1, b2, b3, b4, b5, b6, b7, b8, b9, b10, b11, b12, b13, b14, b15]).map
      (fun be => (6, int64OfUint64 (beUint64 be)))
  | .v4 b0 b1 b2 b3 =>
    let byteCount := Int.tdiv ipVSignificantBits 8
    (beWriteLoop (List.replicate 8 0) 4 byteCount 0 [b0, b1, b2, b3]).map
      (fun be => (4, int64OfUint64 (beUint64 be)))

/-- Zero all bits of a `width`-bit value beyond the first `n` (counting from
the most significant bit). -/
def truncKeep (val width n : Nat) : Nat := val / 2 ^ (width - n) * 2 ^ (width - n)

/-- The 32-bit integer value of an IPv4 address. -/
def ipV4Value (b0 b1 b2 b3 : Nat) : Nat := ((b0 * 256 + b1) * 256 + b2) * 256 + b3

/-- The big-endian value of the first 8 bytes (top 64 bits) of an IPv6
address. -/
def ipV6TopValue (b0 b1 b2 b3 b4 b5 b6 b7 : Nat) : Nat :=
  ((((((b0 * 256 + b1) * 256 + b2) * 256 + b3) * 256 + b4) * 256 + b5) * 256 + b6) * 256 + b7

/-- Modelled from the claim's words: the `(version, integer)` key obtained
by zeroing exactly the bits of the address beyond the first
significant-bit-count bits and packing the remaining prefix into a 64-bit
integer (IPv4 in the low 32 bits, the IPv6 /64 prefix in all 64, matching
the packing of `IpToInt64`). -/
def ipKeyBitExact (addr : IpAddr) (v4Bits v6Bits : Nat) : Int × Int :=
  match addr with
  | .v4 b0 b1 b2 b3 => (4, ((truncKeep (ipV4Value b0 b1 b2 b3) 32 v4Bits : Nat) : Int))
  | .v6 b0 b1 b2 b3 b4 b5 b6 b7 _ _ _ _ _ _ _ _ =>
    (6, int64OfUint64 (truncKeep (ipV6TopValue b0 b1 b2 b3 b4 b5 b6 b7) 64 v6Bits))

/-- All bytes of the address are in range (true of every `netip.Addr`). -/
def ipBytesValid : IpAddr → Prop
  | .v4 b0 b1 b2 b3 => b0 < 256 ∧ b1 < 256 ∧ b2 < 256 ∧ b3 < 256
  | .v6 b0 b1 b2 b3 b4 b5 b6 b7 b8 b9 b10 b11 b12 b13 b14 b15 =>
    b0 < 256 ∧ b1 < 256 ∧ b2 < 256 ∧ b3 < 256 ∧ b4 < 256 ∧ b5 < 256 ∧ b6 < 256 ∧ b7 < 256 ∧
    b8 < 256 ∧ b9 < 256 ∧ b10 < 256 ∧ b11 < 256 ∧ b12 < 256 ∧ b13 < 256 ∧ b14 < 256 ∧ b15 < 256

/-- Two addresses of the same family agree on their first `v4Bits`
(resp. `v6Bits`) bits, i.e. they differ only in bits beyond the
significant-bit count. -/
def ipAgreeOnBits (a a2 : IpAddr) (v4Bits v6Bits : Nat) : Prop :=
  match a, a2 with
  | .v4 b0 b1 b2 b3, .v4 c0 c1 c2 c3 =>
    ipV4Value b0 b1 b2 b3 / 2 ^ (32 - v4Bits) = ipV4Value c0 c1 c2 c3 / 2 ^ (32 - v4Bits)
  | .v6 b0 b1 b2 b3 b4 b5 b6 b7 _ _ _ _ _ _ _ _, .v6 c0 c1 c2 c3 c4 c5 c6 c7 _ _ _ _ _ _ _ _ =>
    ipV6TopValue b0 b1 b2 b3 b4 b5 b6 b7 / 2 ^ (64 - v6Bits) =
      ipV6TopValue c0 c1 c2 c3 c4 c5 c6 c7 / 2 ^ (64 - v6Bits)
  | _, _ => False

/-! ## sqlitedriver/driver.go -/

/-- `sqlitedriver/driver.go:25-48` (`RateLimitOptions`), Go `int` fields and
a window whose precision is seconds. -/
structure RateLimitOptions where
  IPv4SignificantBits : Int
  IPv6SignificantBits : Int
  MaxChallengesPerIp : Int
  MaxChallengesWindow : Int
deriving DecidableEq, Repr

/-- One row of the `cap_challenge` table
(`sqlitedriver/migration/20251010_initial_schema.go`).  The
`ip_significant_bits` column is the column of that name in the schema; the
driver stores the truncated IP integer in it (`Store` binds `ipIntPtr` to
it) and the nullable `ip_version`/`ip_significant_bits` pair is `none` when
the row was stored without rate limiting. -/
structure ChallengeRow where
  challenge_token : String
  challenge_difficulty : Nat
  challenge_count : Nat
  challenge_salt_size : Nat
  redeem_token : String
  is_redeemed : Nat
  ip_version : Option Int
  ip_significant_bits : Option Int
  expires_ts : Int
  created_ts : Int
deriving DecidableEq, Repr

/-- WHERE clause of `useRedeemTokenStmt` (`sqlitedriver/driver.go:169-176`):
`redeem_token = ? and is_redeemed = 0 and expires_ts < ?`, executed with the
redeem token and `time.Now().Unix()`.  Note the comparison direction: the
update matches only rows whose expiry is in the past. -/
def useRedeemTokenWhere (redeemToken : String) (now : Int) (r : ChallengeRow) : Bool :=
  r.redeem_token == redeemToken && r.is_redeemed == 0 && r.expires_ts < now

/-- WHERE clause of `getUnredeemedStmt` (`sqlitedriver/driver.go:152-163`):
`challenge_token = ? and is_redeemed = 0 and expires_ts > ?`. -/
def getUnredeemedWhere (challengeToken : String) (now : Int) (r : ChallengeRow) : Bool :=
  r.challenge_token == challengeToken && r.is_redeemed == 0 && r.expires_ts > now

/-- WHERE clause of `getIpCountStmt` (`sqlitedriver/driver.go:146`):
`ip_version = ? and ip_significant_bits = ? and expires_ts > ?`, executed
with the truncated-IP key and the window start.  SQL `=` against a NULL
column is not satisfied, hence the `Option` equality. -/
def getIpCountWhere (ipVer ipInt windowStartTs : Int) (r : ChallengeRow) : Bool :=
  r.ip_version == some ipVer && r.ip_significant_bits == some ipInt &&
    r.expires_ts > windowStartTs

/-- The row `insertStmt` (`sqlitedriver/driver.go:129-140`) writes for a
challenge: `is_redeemed` starts at 0 and `created_ts` has the schema default
`strftime('%s','now')`. -/
def insertRow (c : Challenge) (ipVer ipInt : Option Int) (now : Int) : ChallengeRow :=
  { challenge_token := c.ChallengeToken
    challenge_difficulty := c.Params.Difficulty
    challenge_count := c.Params.Count
    challenge_salt_size := c.Params.SaltSize
    redeem_token := c.RedeemToken
    is_redeemed := 0
    ip_version := ipVer
    ip_significant_bits := ipInt
    expires_ts := c.Expires
    created_ts := now }

/-- Builds the `cap.Challenge` that `GetUnredeemedChallenge`
(`sqlitedriver/driver.go:303-312`) returns from a scanned row: the
challenge token is the one that was queried. -/
def rowChallenge (challengeToken : String) (r : ChallengeRow) : Challenge :=
  { ChallengeToken := challengeToken
    RedeemToken := r.redeem_token
    Params := { Difficulty := r.challenge_difficulty
                Count := r.challenge_count
                SaltSize := r.challenge_salt_size }
    Expires := r.expires_ts }

namespace Sqlitedriver

/-- Number of `?` parameter markers in the `getUnredeemedStmt` SQL text
(`sqlitedriver/driver.go:160` and `:162`: `challenge_token = ?` and
`expires_ts > ?`). -/
def getUnredeemedStmtParamCount : Nat := 2

/-- Number of arguments `Driver.GetUnredeemedChallenge` binds when executing
the statement (`sqlitedriver/driver.go:288`:
`QueryRowContext(ctx, challengeToken)`). -/
def getUnredeemedQueryArgCount : Nat := 1

/-- `sqlitedriver/driver.go:287-313` (`Driver.GetUnredeemedChallenge`).
The prepared statement has two parameter markers but the call site binds
only the challenge token, so `database/sql` rejects the execution with an
argument-count error before any row is read and the scan returns that
error.  In the (dead) well-bound branch the second parameter would be the
expiry cutoff; the `0` below stands for that never-bound value. -/
def GetUnredeemedChallenge (rows : List ChallengeRow) (challengeToken : String) : FetchResult :=
  if getUnredeemedQueryArgCount == getUnredeemedStmtParamCount then
    FetchResult.ok ((rows.find? (getUnredeemedWhere challengeToken 0)).map (rowChallenge challengeToken))
  else
    FetchResult.err "sql: expected 2 arguments, got 1"

/-- `sqlitedriver/driver.go:315-328` (`Driver.UseRedeemToken`): execute
`useRedeemTokenStmt` with the redeem token and `time.Now().Unix()` (two
arguments for the statement's two markers), setting `is_redeemed = 1` on
every matching row, and return `RowsAffected() > 0`. -/
def UseRedeemToken (rows : List ChallengeRow) (redeemToken : String) (now : Int) :
    List ChallengeRow × Bool :=
  let affected := (rows.filter (useRedeemTokenWhere redeemToken now)).length
  (rows.map (fun r => if useRedeemTokenWhere redeemToken now r then { r with is_redeemed := 1 } else r),
   decide (affected > 0))

/-- `sqlitedriver/driver.go:245-285` (`Driver.Store`).  With a non-nil IP
and rate limiting configured, it truncates the IP with `IpToInt64` (a panic
there aborts the call), counts the rows matching `getIpCountStmt` for the
key and the window start `now - MaxChallengesWindow` (three arguments,
three markers), refuses with `cap.ErrRateLimited` when
`count > MaxChallengesPerIp`, and otherwise inserts the row with the key;
with a nil IP or no rate limiting it inserts with NULL key columns (eight
arguments for the insert's eight markers). -/
def Store (rlOpts : Option RateLimitOptions) (rows : List ChallengeRow)
    (challenge : Challenge) (ip : Option IpAddr) (now : Int) : List ChallengeRow × StoreResult :=
  match ip, rlOpts with
  | some ipa, some rl =>
    match IpToInt64 ipa rl.IPv4SignificantBits rl.IPv6SignificantBits with
    | none => (rows, StoreResult.panicked)
    | some (ipVer, ipInt) =>
      let windowStart := now - rl.MaxChallengesWindow
      let count := (rows.filter (getIpCountWhere ipVer ipInt windowStart)).length
      if (count : Int) > rl.MaxChallengesPerIp then (rows, StoreResult.rateLimited)
      else (rows ++ [insertRow challenge (some ipVer) (some ipInt) now], StoreResult.ok)
  | _, _ => (rows ++ [insertRow challenge none none now], StoreResult.ok)

/-- The SQLite driver as an instance of the `Driver` contract, over the
table state, at a fixed clock reading `now`. -/
def driverOps (rlOpts : Option RateLimitOptions) (now : Int) : DriverOps (List ChallengeRow) :=
  { Store := fun rows c ip => Store rlOpts rows c ip now
    GetUnredeemedChallenge := fun rows tok => (rows, GetUnredeemedChallenge rows tok)
    UseRedeemToken := fun rows tok => UseRedeemToken rows tok now }

end Sqlitedriver

/-! ## Concrete fixtures used by witnesses -/

/-- A driver over a trivial state whose fetch always returns `c` and leaves
the state unchanged; used to instantiate theorems about the engine. -/
def witDriver (c : Option Challenge) : DriverOps Nat :=
  { Store := fun s _ _ => (s, StoreResult.ok)
    GetUnredeemedChallenge := fun s _ => (s, FetchResult.ok c)
    UseRedeemToken := fun s _ => (s, false) }

/-- A small pending challenge: token `"a"`, one sub-challenge, difficulty 0
(so the target is the empty string), salt size 4. -/
def witChallenge1 : Challenge := ⟨"a", "rt", ⟨0, 1, 4⟩, 999⟩

/-- A pending challenge demanding two solutions. -/
def witChallenge2 : Challenge := ⟨"a", "rt", ⟨0, 2, 4⟩, 999⟩

/-- A pending challenge with zero sub-challenges. -/
def witChallenge0 : Challenge := ⟨"a", "rt", ⟨4, 0, 32⟩, 999⟩

/-- Rate-limit options of the C2 scenario: full-address truncation, at most
2 challenges per 60-second window. -/
def c2Rl : RateLimitOptions := ⟨32, 64, 2, 60⟩

/-- A challenge of the C2 scenario expiring at Unix second 1600. -/
def c2Chal (ct rt : String) : Challenge := ⟨ct, rt, ⟨4, 50, 32⟩, 1600⟩

/-- Table state after the first store of the C2 scenario. -/
def c2Rows1 : List ChallengeRow :=
  (Sqlitedriver.Store (some c2Rl) [] (c2Chal "c1" "r1") (some (.v4 1 2 3 4)) 1000).1

/-- Table state after the second store of the C2 scenario. -/
def c2Rows2 : List ChallengeRow :=
  (Sqlitedriver.Store (some c2Rl) c2Rows1 (c2Chal "c2" "r2") (some (.v4 1 2 3 4)) 1000).1

/-- Table state after the third store of the C2 scenario. -/
def c2Rows3 : List ChallengeRow :=
  (Sqlitedriver.Store (some c2Rl) c2Rows2 (c2Chal "c3" "r3") (some (.v4 1 2 3 4)) 1000).1

/-- A stored, unredeemed challenge row with token `"t"`, redeem token
`"r"`, expiring at Unix second 100. -/
def rowPending : ChallengeRow :=
  { challenge_token := "t", challenge_difficulty := 4, challenge_count := 50,
    challenge_salt_size := 32, redeem_token := "r", is_redeemed := 0,
    ip_version := none, ip_significant_bits := none, expires_ts := 100, created_ts := 0 }

/-- The same row already past its expiry relative to `now = 50`
(`expires_ts = 10`). -/
def rowExpired : ChallengeRow := { rowPending with expires_ts := 10 }

/-! ## Sanity checks of the SHA-256 embedding (FIPS 180-4 test vectors) -/

/-- SHA-256 of the empty message matches the standard test vector. -/
theorem sha256_empty_vector :
    hexEncode (sha256 []) =
      "e3b0c44298fc1c149afbf4c8996fb92427ae41e4649b934ca495991b7852b855" := by decide

/-- SHA-256 of `"abc"` matches the standard test vector. -/
theorem sha256_abc_vector :
    hexEncode (sha256 [97, 98, 99]) =
      "ba7816bf8f01cfea414140de5dae2223b00361a396177a9cb410ff61f20015ad" := by decide

/-! ## C1 -/

/-- C1: the claim says the first `UseRedeemToken` call on a stored, pending
(unredeemed, unexpired) challenge returns `true`, and a call on an expired
challenge returns `false`.  Evaluating the embedded `Driver.UseRedeemToken`
at `now = 50` shows the opposite on both counts: the update's WHERE clause
(`sqlitedriver/driver.go:175`) requires `expires_ts < now`, so the pending
row (`expires_ts = 100`) matches no rows and yields `false` on the very
first call, while the expired row (`expires_ts = 10`) is redeemed with
`true`. -/
theorem c1_redeem_expiry_comparison_inverted :
    (Sqlitedriver.UseRedeemToken [rowPending] "r" 50).2 = false ∧
    (Sqlitedriver.UseRedeemToken [rowExpired] "r" 50).2 = true := by decide

/-! ## C2 -/

/-- C2: with `maxPerWindow = 2` and a 60-second window, the claim says three
`Store` calls from the same truncated IP within the window yield success,
success, RateLimited.  Evaluating the embedded `Driver.Store` shows the
third call also succeeds — the guard at `sqlitedriver/driver.go:264` is
`count > MaxChallengesPerIp`, checked before the insert, so the third call
sees `count = 2` and passes; only the fourth call is refused. -/
theorem c2_rate_limit_allows_third_request :
    (Sqlitedriver.Store (some c2Rl) [] (c2Chal "c1" "r1") (some (.v4 1 2 3 4)) 1000).2 =
        StoreResult.ok ∧
    (Sqlitedriver.Store (some c2Rl) c2Rows1 (c2Chal "c2" "r2") (some (.v4 1 2 3 4)) 1000).2 =
        StoreResult.ok ∧
    (Sqlitedriver.Store (some c2Rl) c2Rows2 (c2Chal "c3" "r3") (some (.v4 1 2 3 4)) 1000).2 =
        StoreResult.ok ∧
    (Sqlitedriver.Store (some c2Rl) c2Rows3 (c2Chal "c4" "r4") (some (.v4 1 2 3 4)) 1000).2 =
        StoreResult.rateLimited := by decide

/-! ## C6 -/

/-- C6: the claim says `VerifySolutions` on a missing, expired or redeemed
token fails with `ErrChallengeNotFound`.  Evaluating the engine over the
embedded SQLite driver on an expired, never-redeemed challenge (the claim's
"in particular" case) shows it instead propagates a storage error: the
prepared select has two parameter markers but `GetUnredeemedChallenge`
binds only the token (`sqlitedriver/driver.go:288`), so every fetch errors
before reading a row. -/
theorem c6_get_unredeemed_errors_instead_of_notfound :
    (Cap.VerifyChallengeSolutions (Sqlitedriver.driverOps none 50) [rowExpired] ⟨"t", []⟩).2 =
        VerifyResult.errDriver "sql: expected 2 arguments, got 1" ∧
    (Cap.VerifyChallengeSolutions (Sqlitedriver.driverOps none 50) [rowExpired] ⟨"t", []⟩).2 ≠
        VerifyResult.errChallengeNotFound := by decide

/-! ## C7 counterexample -/

/-- C7 counterexample: for the IPv4 address `10.128.0.0` and 12 significant
bits (in range, not a multiple of 8), `IpToInt64` keeps only
`12 / 8 = 1` whole byte (`10.0.0.0/8`, integer `10 * 2^24 = 167772160`),
whereas zeroing exactly the bits beyond the first 12 keeps the top nibble
of the second byte as well (`176160768`), so the function does not compute
the bit-exact key the claim describes. -/
theorem c7_counterexample_bit12 :
    IpToInt64 (.v4 10 128 0 0) 12 64 = some (4, 167772160) ∧
    ipKeyBitExact (.v4 10 128 0 0) 12 64 = (4, 176160768) ∧
    IpToInt64 (.v4 10 128 0 0) 12 64 ≠ some (ipKeyBitExact (.v4 10 128 0 0) 12 64) := by decide

/-! ## C10 counterexample -/

/-- C10 counterexample: with an IPv6 address and `ipV6SignificantBits = 72`
(above the documented cap of 64), the write loop reaches index 8 of the
8-byte buffer (`byteCount = 9`, and the empty `if byteCount > 64 { }` guard
clamps nothing), an out-of-range index panic — the function is not total
over out-of-range bit counts. -/
theorem c10_counterexample_v6_bits72 :
    IpToInt64 (.v6 0 0 0 0 0 0 0 0 0 0 0 0 0 0 0 0) 32 72 = none := by decide

/-! ## Shape lemmas for the verification engine -/

/-- When the driver fetch succeeds with a challenge, `VerifyChallengeSolutions`
reduces to the length check followed by the solution loop. -/
theorem verify_fetched {σ : Type} (d : DriverOps σ) (s s1 : σ) (req : VerifySolutionsRequest)
    (c : Challenge)
    (hf : d.GetUnredeemedChallenge s req.ChallengeToken = (s1, FetchResult.ok (some c))) :
    Cap.VerifyChallengeSolutions d s req =
      if req.Solutions.length < c.Params.Count then (s1, VerifyResult.errInsufficientSolutions)
      else if !(checkLoop req.Solutions 0
          (challengeTuples c.ChallengeToken c.Params.Count c.Params.SaltSize c.Params.Difficulty)) then
        (s1, VerifyResult.errInvalidSolution)
      else (s1, VerifyResult.ok ⟨c.RedeemToken, c.Expires⟩) := by
  unfold Cap.VerifyChallengeSolutions
  rw [hf]

/-- The loop accepts iff every position in the tuple list passes its check
(positions are offset by the starting index `i`). -/
theorem checkLoop_true_iff (sols : List Nat) :
    ∀ (l : List (String × String)) (i : Nat),
      checkLoop sols i l = true ↔
        ∀ k, k < l.length →
          goStartsWith (solutionHashHex (l.getD k ("", "")).1 (sols.getD (i + k) 0))
            (l.getD k ("", "")).2 = true := by
  intro l
  induction l with
  | nil => intro i; simp [checkLoop]
  | cons hd tl ih =>
    intro i
    obtain ⟨salt, target⟩ := hd
    by_cases hc : goStartsWith (solutionHashHex salt (sols.getD i 0)) target = true
    · rw [checkLoop, if_pos hc, ih (i + 1)]
      constructor
      · intro h k hk
        match k with
        | 0 => simpa using hc
        | k2 + 1 =>
          have h2 := h k2 (by simp at hk; omega)
          have hi : i + 1 + k2 = i + (k2 + 1) := by omega
          rw [hi] at h2
          simpa using h2
      · intro h k hk
        have h2 := h (k + 1) (by simp; omega)
        have hi : i + (k + 1) = i + 1 + k := by omega
        rw [hi] at h2
        simpa using h2
    · rw [checkLoop, if_neg hc]
      constructor
      · intro h; cases h
      · intro h
        have h0 := h 0 (by simp)
        simp only [List.getD_cons_zero, Nat.add_zero] at h0
        exact absurd h0 hc

/-- The loop's outcome depends only on the solution entries at the positions
it inspects. -/
theorem checkLoop_congr (sols sols2 : List Nat) :
    ∀ (l : List (String × String)) (i : Nat),
      (∀ k, k < l.length → sols.getD (i + k) 0 = sols2.getD (i + k) 0) →
      checkLoop sols i l = checkLoop sols2 i l := by
  intro l
  induction l with
  | nil => intro i _; rfl
  | cons hd tl ih =>
    intro i h
    obtain ⟨salt, target⟩ := hd
    have h0 : sols.getD i 0 = sols2.getD i 0 := by simpa using h 0 (by simp)
    rw [checkLoop, checkLoop, h0]
    by_cases hc : goStartsWith (solutionHashHex salt (sols2.getD i 0)) target = true
    · rw [if_pos hc, if_pos hc]
      refine ih (i + 1) (fun k hk => ?_)
      have h2 := h (k + 1) (by simp; omega)
      have hi : i + (k + 1) = i + 1 + k := by omega
      rw [hi] at h2
      exact h2
    · rw [if_neg hc, if_neg hc]

/-- Length of the derived tuple list. -/
theorem challengeTuples_length (token : String) (count ss diff : Nat) :
    (challengeTuples token count ss diff).length = count := by
  simp [challengeTuples]

/-- The tuple at a valid position. -/
theorem challengeTuples_getD (token : String) (count ss diff k : Nat) (h : k < count) :
    (challengeTuples token count ss diff).getD k ("", "") =
      (prng (token ++ decimalString (k + 1)) ss,
       prng (token ++ decimalString (k + 1) ++ "d") diff) := by
  rw [challengeTuples, List.getD_eq_getElem?_getD, List.getElem?_map, List.getElem?_range h]
  rfl

/-- The loop over the derived tuples accepts iff every position of the
claim's per-position formula passes. -/
theorem checkLoop_tuples_iff (token : String) (params : ChallengeParams) (xs : List Nat) :
    checkLoop xs 0 (challengeTuples token params.Count params.SaltSize params.Difficulty) = true ↔
      ∀ i, i < params.Count → solutionOk token params i (xs.getD i 0) = true := by
  rw [checkLoop_true_iff]
  constructor
  · intro h i hi
    have h2 := h i (by rw [challengeTuples_length]; exact hi)
    rw [challengeTuples_getD _ _ _ _ _ hi] at h2
    simpa [solutionOk] using h2
  · intro h k hk
    rw [challengeTuples_length] at hk
    rw [challengeTuples_getD _ _ _ _ _ hk]
    simpa [solutionOk] using h k hk

/-! ## C3 -/

/-- C3: for a fetched pending challenge and at least `Count` solutions,
verification succeeds with the stored redeem token and expiry iff every
position `i` (1-indexed `i+1` in the seeds) satisfies: the lowercase-hex
SHA-256 of `DDF(token + decimal(i+1), SaltSize) || decimal(solution_i)`
starts with `DDF(token + decimal(i+1) + "d", Difficulty)`; any failing
position yields `ErrInvalidSolution`; and a failure at position `j`
determines the outcome from the entries up to `j` alone — entries after the
first failing position are never consulted. -/
theorem c3_verify_iff {σ : Type} (d : DriverOps σ) (s s1 : σ) (req : VerifySolutionsRequest)
    (c : Challenge)
    (hf : d.GetUnredeemedChallenge s req.ChallengeToken = (s1, FetchResult.ok (some c)))
    (hlen : c.Params.Count ≤ req.Solutions.length) :
    ((Cap.VerifyChallengeSolutions d s req).2 = VerifyResult.ok ⟨c.RedeemToken, c.Expires⟩ ↔
      ∀ i, i < c.Params.Count →
        solutionOk c.ChallengeToken c.Params i (req.Solutions.getD i 0) = true) ∧
    ((∃ i, i < c.Params.Count ∧
        solutionOk c.ChallengeToken c.Params i (req.Solutions.getD i 0) = false) →
      (Cap.VerifyChallengeSolutions d s req).2 = VerifyResult.errInvalidSolution) ∧
    (∀ j sols2, j < c.Params.Count →
      solutionOk c.ChallengeToken c.Params j (req.Solutions.getD j 0) = false →
      c.Params.Count ≤ sols2.length →
      (∀ i, i ≤ j → sols2.getD i 0 = req.Solutions.getD i 0) →
      (Cap.VerifyChallengeSolutions d s ⟨req.ChallengeToken, sols2⟩).2 =
        VerifyResult.errInvalidSolution) := by
  have hv := verify_fetched d s s1 req c hf
  rw [if_neg (by omega)] at hv
  have hfail : ∀ (xs : List Nat), xs.length ≥ c.Params.Count →
      (∃ i, i < c.Params.Count ∧ solutionOk c.ChallengeToken c.Params i (xs.getD i 0) = false) →
      (Cap.VerifyChallengeSolutions d s ⟨req.ChallengeToken, xs⟩).2 =
        VerifyResult.errInvalidSolution := by
    intro xs hxs ⟨i, hi, hbad⟩
    have hv2 := verify_fetched d s s1 ⟨req.ChallengeToken, xs⟩ c hf
    rw [if_neg (by simp; omega)] at hv2
    have hcl : checkLoop xs 0
        (challengeTuples c.ChallengeToken c.Params.Count c.Params.SaltSize c.Params.Difficulty) =
        false := by
      rcases hb : checkLoop xs 0
          (challengeTuples c.ChallengeToken c.Params.Count c.Params.SaltSize c.Params.Difficulty) with _ | _
      · rfl
      · have := (checkLoop_tuples_iff c.ChallengeToken c.Params xs).mp hb i hi
        rw [hbad] at this
        cases this
    rw [hcl] at hv2
    simp only [Bool.not_false, if_true] at hv2
    rw [hv2]
  refine ⟨?_, ?_, ?_⟩
  · by_cases hb : checkLoop req.Solutions 0
        (challengeTuples c.ChallengeToken c.Params.Count c.Params.SaltSize c.Params.Difficulty) = true
    · rw [hb] at hv
      simp only [Bool.not_true, if_false] at hv
      rw [hv]
      exact ⟨fun _ i hi => (checkLoop_tuples_iff c.ChallengeToken c.Params req.Solutions).mp hb i hi,
             fun _ => rfl⟩
    · have hb' : checkLoop req.Solutions 0
          (challengeTuples c.ChallengeToken c.Params.Count c.Params.SaltSize c.Params.Difficulty) =
          false := by
        revert hb
        rcases checkLoop req.Solutions 0
            (challengeTuples c.ChallengeToken c.Params.Count c.Params.SaltSize c.Params.Difficulty) with _ | _ <;> simp
      rw [hb'] at hv
      simp only [Bool.not_false, if_true] at hv
      rw [hv]
      refine iff_of_false (by simp) (fun hall => ?_)
      rw [(checkLoop_tuples_iff c.ChallengeToken c.Params req.Solutions).mpr hall] at hb'
      cases hb'
  · intro hex
    have h2 := hfail req.Solutions (by omega) hex
    have hreq : (⟨req.ChallengeToken, req.Solutions⟩ : VerifySolutionsRequest) = req := rfl
    rw [hreq] at h2
    exact h2
  · intro j sols2 hj hbad hlen2 hagree
    refine hfail sols2 (by omega) ⟨j, hj, ?_⟩
    rw [hagree j (by omega)]
    exact hbad

/-- C3 witness: a concrete pending challenge with one sub-challenge of
difficulty 0 (empty target) fetched through a concrete driver; the
equivalence instantiates and its right-hand side holds. -/
theorem c3_witness :
    (witChallenge1.Params.Count ≤ ([7] : List Nat).length) ∧
    ((Cap.VerifyChallengeSolutions (witDriver (some witChallenge1)) 0 ⟨"a", [7]⟩).2 =
        VerifyResult.ok ⟨witChallenge1.RedeemToken, witChallenge1.Expires⟩ ↔
      ∀ i, i < witChallenge1.Params.Count →
        solutionOk witChallenge1.ChallengeToken witChallenge1.Params i (([7] : List Nat).getD i 0) = true) :=
  ⟨by decide,
   (c3_verify_iff (witDriver (some witChallenge1)) 0 0 ⟨"a", [7]⟩ witChallenge1 rfl (by decide)).1⟩

/-! ## C5 -/

/-- C5: for a fetched pending challenge, strictly fewer solutions than
`Count` always yields `ErrInsufficientSolutions`, whatever the provided
entries are (the result is this error for every such solutions list; no
hash enters the outcome). -/
theorem c5_insufficient_solutions {σ : Type} (d : DriverOps σ) (s s1 : σ)
    (req : VerifySolutionsRequest) (c : Challenge)
    (hf : d.GetUnredeemedChallenge s req.ChallengeToken = (s1, FetchResult.ok (some c)))
    (hlen : req.Solutions.length < c.Params.Count) :
    (Cap.VerifyChallengeSolutions d s req).2 = VerifyResult.errInsufficientSolutions := by
  rw [verify_fetched d s s1 req c hf, if_pos hlen]

/-- C5 witness: a challenge demanding two solutions, given only one. -/
theorem c5_witness :
    (([7] : List Nat).length < witChallenge2.Params.Count) ∧
    (Cap.VerifyChallengeSolutions (witDriver (some witChallenge2)) 0 ⟨"a", [7]⟩).2 =
      VerifyResult.errInsufficientSolutions :=
  ⟨by decide,
   c5_insufficient_solutions (witDriver (some witChallenge2)) 0 0 ⟨"a", [7]⟩ witChallenge2 rfl
     (by decide)⟩

/-! ## C9 -/

/-- C9: the outcome of `VerifyChallengeSolutions` depends only on the first
`Count` entries of the solutions list — two lists of sufficient length
agreeing on those entries give identical results — and a fetched pending
challenge with `Count = 0` succeeds with the redeem token for every
solutions list, including the empty one. -/
theorem c9_extra_solutions_ignored {σ : Type} (d : DriverOps σ) (s s1 : σ) (tok : String)
    (c : Challenge) (sols sols2 : List Nat)
    (hf : d.GetUnredeemedChallenge s tok = (s1, FetchResult.ok (some c)))
    (h1 : c.Params.Count ≤ sols.length) (h2 : c.Params.Count ≤ sols2.length)
    (hagree : ∀ i, i < c.Params.Count → sols.getD i 0 = sols2.getD i 0) :
    Cap.VerifyChallengeSolutions d s ⟨tok, sols⟩ = Cap.VerifyChallengeSolutions d s ⟨tok, sols2⟩ ∧
    (c.Params.Count = 0 →
      ∀ anySols : List Nat,
        Cap.VerifyChallengeSolutions d s ⟨tok, anySols⟩ =
          (s1, VerifyResult.ok ⟨c.RedeemToken, c.Expires⟩)) := by
  constructor
  · have hv1 := verify_fetched d s s1 ⟨tok, sols⟩ c hf
    have hv2 := verify_fetched d s s1 ⟨tok, sols2⟩ c hf
    rw [if_neg (by simp; omega)] at hv1
    rw [if_neg (by simp; omega)] at hv2
    have hcl : checkLoop sols 0
        (challengeTuples c.ChallengeToken c.Params.Count c.Params.SaltSize c.Params.Difficulty) =
      checkLoop sols2 0
        (challengeTuples c.ChallengeToken c.Params.Count c.Params.SaltSize c.Params.Difficulty) := by
      refine checkLoop_congr sols sols2 _ 0 (fun k hk => ?_)
      rw [challengeTuples_length] at hk
      simpa using hagree k hk
    rw [hv1, hv2, hcl]
  · intro h0 anySols
    have hv := verify_fetched d s s1 ⟨tok, anySols⟩ c hf
    rw [if_neg (by simp [h0])] at hv
    rw [hv]
    have : challengeTuples c.ChallengeToken c.Params.Count c.Params.SaltSize c.Params.Difficulty =
        [] := by
      simp [challengeTuples, h0]
    rw [this]
    rfl

/-- C9 witness: a concrete pending challenge with `Count = 0`, fetched
through a concrete driver; the empty and a non-empty solutions list give
the same result. -/
theorem c9_witness :
    (witChallenge0.Params.Count ≤ ([] : List Nat).length) ∧
    Cap.VerifyChallengeSolutions (witDriver (some witChallenge0)) 0 ⟨"a", []⟩ =
      Cap.VerifyChallengeSolutions (witDriver (some witChallenge0)) 0 ⟨"a", [5]⟩ :=
  ⟨by decide,
   (c9_extra_solutions_ignored (witDriver (some witChallenge0)) 0 0 "a" witChallenge0 [] [5] rfl
     (by decide) (by decide)
     (fun i hi => absurd hi (Nat.not_lt_zero i))).1⟩

/-! ## C8 -/

/-- C8: `VerifyChallengeSolutions` interacts with the driver through the
single `GetUnredeemedChallenge` call — its final state is exactly that
call's output state, whatever the driver; when that call leaves the state
unchanged the whole verification leaves it unchanged and repeating the call
gives the same result; and on success the returned redeem data is exactly
the fetched challenge's redeem token and expiry (the token is not
consumed). -/
theorem c8_read_only {σ : Type} (d : DriverOps σ) (s : σ) (req : VerifySolutionsRequest) :
    ((Cap.VerifyChallengeSolutions d s req).1 =
      (d.GetUnredeemedChallenge s req.ChallengeToken).1) ∧
    ((d.GetUnredeemedChallenge s req.ChallengeToken).1 = s →
      (Cap.VerifyChallengeSolutions d s req).1 = s ∧
      Cap.VerifyChallengeSolutions d (Cap.VerifyChallengeSolutions d s req).1 req =
        Cap.VerifyChallengeSolutions d s req) ∧
    (∀ c2 : Challenge,
      (d.GetUnredeemedChallenge s req.ChallengeToken).2 = FetchResult.ok (some c2) →
      ∀ rd : RedeemData, (Cap.VerifyChallengeSolutions d s req).2 = VerifyResult.ok rd →
        rd = ⟨c2.RedeemToken, c2.Expires⟩) := by
  have hfirst : (Cap.VerifyChallengeSolutions d s req).1 =
      (d.GetUnredeemedChallenge s req.ChallengeToken).1 := by
    unfold Cap.VerifyChallengeSolutions
    rcases hg : d.GetUnredeemedChallenge s req.ChallengeToken with ⟨s1, fr⟩
    rcases fr with c | e
    · rcases c with _ | c
      · rfl
      · simp only []
        split <;> (try split) <;> rfl
    · rfl
  refine ⟨hfirst, fun hs => ⟨by rw [hfirst, hs], by rw [hfirst, hs]⟩, ?_⟩
  intro c2 hg2 rd hok
  rcases hg : d.GetUnredeemedChallenge s req.ChallengeToken with ⟨s1, fr⟩
  rw [hg] at hg2
  simp only [] at hg2
  rcases fr with c | e
  · rcases c with _ | c
    · cases hg2
    · have hc : c = c2 := by injection hg2 with h1; injection h1
      subst hc
      have hv := verify_fetched d s s1 req c hg
      rw [hv] at hok
      by_cases hl : req.Solutions.length < c.Params.Count
      · rw [if_pos hl] at hok
        cases hok
      · rw [if_neg hl] at hok
        by_cases hb : checkLoop req.Solutions 0
            (challengeTuples c.ChallengeToken c.Params.Count c.Params.SaltSize
              c.Params.Difficulty) = true
        · rw [hb] at hok
          simp only [Bool.not_true, if_false] at hok
          injection hok with h2
          exact h2.symm
        · have hb' : checkLoop req.Solutions 0
              (challengeTuples c.ChallengeToken c.Params.Count c.Params.SaltSize
                c.Params.Difficulty) = false := by
            revert hb
            rcases checkLoop req.Solutions 0
                (challengeTuples c.ChallengeToken c.Params.Count c.Params.SaltSize
                  c.Params.Difficulty) with _ | _ <;> simp
          rw [hb'] at hok
          simp only [Bool.not_false, if_true] at hok
          cases hok
  · cases hg2

/-- C8 witness: a concrete read-only driver and challenge; the final state
equals the initial state. -/
theorem c8_witness :
    ((witDriver (some witChallenge1)).GetUnredeemedChallenge 0 "a").1 = 0 ∧
    (Cap.VerifyChallengeSolutions (witDriver (some witChallenge1)) 0 ⟨"a", [7]⟩).1 = 0 :=
  ⟨rfl, ((c8_read_only (witDriver (some witChallenge1)) 0 ⟨"a", [7]⟩).2.1 rfl).1⟩

/-! ## C4 -/

/-- Each loop iteration contributes exactly 8 characters. -/
theorem toHex8_length (x : Nat) : (toHex8 x).length = 8 := rfl

/-- Length of `n` loop iterations. -/
theorem hexBlocks_length : ∀ (n state : Nat), (hexBlocks state n).length = 8 * n := by
  intro n
  induction n with
  | zero => intro state; rfl
  | succ k ih =>
    intro state
    rw [hexBlocks, List.length_append, toHex8_length, ih (xorshift32 state)]
    omega

/-- The while loop of `prng` equals the block form: starting from any
accumulator it appends exactly `ceil((length - acc.length) / 8)` blocks. -/
theorem goPrngLoop_eq_blocks :
    ∀ (n state : Nat) (acc : List Char) (length : Nat), length - acc.length ≤ n →
      goPrngLoop state acc length = acc ++ hexBlocks state ((length - acc.length + 7) / 8) := by
  intro n
  induction n with
  | zero =>
    intro state acc length h
    have hstop : ¬ acc.length < length := by omega
    rw [goPrngLoop, if_neg hstop]
    have h0 : (length - acc.length + 7) / 8 = 0 := by omega
    rw [h0, hexBlocks, List.append_nil]
  | succ k ih =>
    intro state acc length h
    by_cases hlt : acc.length < length
    · rw [goPrngLoop, if_pos hlt]
      show goPrngLoop (xorshift32 state) (acc ++ toHex8 (xorshift32 state)) length = _
      have hlen : (acc ++ toHex8 (xorshift32 state)).length = acc.length + 8 := by
        rw [List.length_append, toHex8_length]
      have hrec := ih (xorshift32 state) (acc ++ toHex8 (xorshift32 state)) length (by omega)
      rw [hrec, hlen]
      have harith : (length - acc.length + 7) / 8 = (length - (acc.length + 8) + 7) / 8 + 1 := by
        omega
      rw [harith, hexBlocks, List.append_assoc]
    · rw [goPrngLoop, if_neg hlt]
      have h0 : (length - acc.length + 7) / 8 = 0 := by omega
      rw [h0, hexBlocks, List.append_nil]

/-- The block-form `prng` equals the literal while-loop of the source. -/
theorem prng_eq_goPrngLoop (seed : String) (length : Nat) :
    prng seed length = String.mk ((goPrngLoop (fnv1a seed) [] length).take length) := by
  rw [prng, goPrngLoop_eq_blocks (length - 0) (fnv1a seed) [] length (by omega)]
  rfl

/-- Hex digits of nibble values are in the `[0-9a-f]` alphabet. -/
theorem hexDigitChar_hex (v : Nat) (h : v ≤ 15) : isLowerHexDigit (hexDigitChar v) = true := by
  interval_cases v <;> decide

/-- Every character a loop iteration appends is a lowercase hex digit. -/
theorem toHex8_all (x : Nat) : (toHex8 x).all isLowerHexDigit = true := by
  simp only [toHex8, List.all_cons, List.all_nil, Bool.and_eq_true, and_true]
  exact ⟨hexDigitChar_hex _ Nat.and_le_right, hexDigitChar_hex _ Nat.and_le_right,
         hexDigitChar_hex _ Nat.and_le_right, hexDigitChar_hex _ Nat.and_le_right,
         hexDigitChar_hex _ Nat.and_le_right, hexDigitChar_hex _ Nat.and_le_right,
         hexDigitChar_hex _ Nat.and_le_right, hexDigitChar_hex _ Nat.and_le_right⟩

/-- Every character the loop produces is a lowercase hex digit. -/
theorem hexBlocks_all : ∀ (n state : Nat), (hexBlocks state n).all isLowerHexDigit = true := by
  intro n
  induction n with
  | zero => intro state; rfl
  | succ k ih =>
    intro state
    rw [hexBlocks, List.all_append, toHex8_all, ih (xorshift32 state)]
    rfl

/-- C4: for every seed and every requested length, `prng` equals the
source's while-loop rendering of xorshift32 states seeded by the FNV-1a
hash of the seed's UTF-16 code units (truncated to the requested length),
its output length is exactly the requested length, and every output
character is in `[0-9a-f]`.  Determinism is inherent: `prng` is a function
of `(seed, length)` alone. -/
theorem c4_ddf_reference (seed : String) (length : Nat) :
    prng seed length = String.mk ((goPrngLoop (fnv1a seed) [] length).take length) ∧
    (prng seed length).length = length ∧
    (prng seed length).data.all isLowerHexDigit = true := by
  refine ⟨prng_eq_goPrngLoop seed length, ?_, ?_⟩
  · show ((hexBlocks (fnv1a seed) ((length + 7) / 8)).take length).length = length
    rw [List.length_take, hexBlocks_length]
    omega
  · show ((hexBlocks (fnv1a seed) ((length + 7) / 8)).take length).all isLowerHexDigit = true
    have hall := hexBlocks_all ((length + 7) / 8) (fnv1a seed)
    rw [List.all_eq_true] at hall ⊢
    intro x hx
    exact hall x ((List.take_sublist _ _).subset hx)

/-! ## Loop lemmas for `IpToInt64` -/

/-- One write step of the loop, when the break has not fired and the index
is in range. -/
theorem beWriteLoop_cons_lt (be : List Nat) (off : Nat) (bc : Int) (i b : Nat) (rest : List Nat)
    (h : (i : Int) < bc) (hidx : off + i < be.length) :
    beWriteLoop be off bc i (b :: rest) = beWriteLoop (be.set (off + i) b) off bc (i + 1) rest := by
  rw [beWriteLoop, if_neg (by omega), if_pos hidx]

/-- The break step of the loop. -/
theorem beWriteLoop_cons_ge (be : List Nat) (off : Nat) (bc : Int) (i b : Nat) (rest : List Nat)
    (h : bc ≤ (i : Int)) :
    beWriteLoop be off bc i (b :: rest) = some be := by
  rw [beWriteLoop, if_pos (by omega)]

/-- The IPv4 branch writes at offsets `4 + i` with `i < 4`, always in range:
the loop cannot panic whatever the byte count. -/
theorem beWriteLoop_v4_isSome :
    ∀ (src : List Nat) (i : Nat) (be : List Nat) (bc : Int),
      be.length = 8 → i + src.length ≤ 4 → (beWriteLoop be 4 bc i src).isSome = true := by
  intro src
  induction src with
  | nil => intros; rfl
  | cons b rest ih =>
    intro i be bc hbe hlen
    rw [beWriteLoop]
    by_cases hbr : (i : Int) ≥ bc
    · rw [if_pos hbr]; rfl
    · rw [if_neg hbr]
      have hidx : 4 + i < be.length := by
        simp only [List.length_cons] at hlen
        omega
      rw [if_pos hidx]
      refine ih (i + 1) _ bc ?_ ?_
      · rw [List.length_set]; exact hbe
      · simp only [List.length_cons] at hlen; omega

/-- The IPv6 branch cannot panic while the byte count is at most 8. -/
theorem beWriteLoop_v6_some :
    ∀ (src : List Nat) (i : Nat) (be : List Nat) (bc : Int),
      be.length = 8 → bc ≤ 8 → (beWriteLoop be 0 bc i src).isSome = true := by
  intro src
  induction src with
  | nil => intros; rfl
  | cons b rest ih =>
    intro i be bc hbe hbc
    rw [beWriteLoop]
    by_cases hbr : (i : Int) ≥ bc
    · rw [if_pos hbr]; rfl
    · rw [if_neg hbr]
      have hidx : 0 + i < be.length := by omega
      rw [if_pos hidx]
      refine ih (i + 1) _ bc ?_ hbc
      rw [List.length_set]; exact hbe

/-- With a byte count of at least 9 and at least `9 - i` source bytes left,
the IPv6 branch reaches index 8 of the 8-byte buffer and panics. -/
theorem beWriteLoop_v6_none :
    ∀ (src : List Nat) (i : Nat) (be : List Nat) (bc : Int),
      be.length = 8 → 9 ≤ bc → i ≤ 8 → 9 ≤ i + src.length →
      beWriteLoop be 0 bc i src = none := by
  intro src
  induction src with
  | nil =>
    intro i be bc _ _ hi hreach
    simp only [List.length_nil] at hreach
    omega
  | cons b rest ih =>
    intro i be bc hbe hbc hi hreach
    rw [beWriteLoop, if_neg (by omega)]
    by_cases hidx : 0 + i < be.length
    · rw [if_pos hidx]
      refine ih (i + 1) _ bc (by rw [List.length_set]; exact hbe) hbc (by omega) ?_
      simp only [List.length_cons] at hreach
      omega
    · rw [if_neg hidx]

/-- Go's truncated division of a non-negative `int` by 8. -/
theorem tdiv_ofNat_eight (n : Nat) : Int.tdiv (Int.ofNat n) 8 = Int.ofNat (n / 8) := rfl

/-- Go's truncated division of a negative `int` by 8 rounds toward zero. -/
theorem tdiv_negSucc_eight (n : Nat) : Int.tdiv (Int.negSucc n) 8 = -Int.ofNat ((n + 1) / 8) := rfl

/-- The byte count stays at most 8 exactly when the bits argument is below
72 (including every negative argument). -/
theorem tdiv_eight_le_eight_iff (b : Int) : Int.tdiv b 8 ≤ 8 ↔ b < 72 := by
  rcases b with n | n
  · rw [tdiv_ofNat_eight]
    simp only [Int.ofNat_eq_natCast]
    omega
  · rw [tdiv_negSucc_eight]
    simp only [Int.ofNat_eq_natCast, Int.negSucc_eq]
    omega

set_option linter.unusedVariables false

set_option linter.unusedTactic false

/-- The loop on an exhausted source list. -/
theorem beWriteLoop_nil (be : List Nat) (off : Nat) (bc : Int) (i : Nat) :
    beWriteLoop be off bc i [] = some be := rfl

/-- Value computed by the IPv4 branch for an in-range byte count `k`: the
key keeps exactly the first `k` bytes, i.e. the first `8 * k` bits, of the
address. -/
theorem beWriteLoop_v4_value (b0 b1 b2 b3 : Nat)
    (h0 : b0 < 256) (h1 : b1 < 256) (h2 : b2 < 256) (h3 : b3 < 256) (k : Nat) (hk : k ≤ 4) :
    (beWriteLoop (List.replicate 8 0) 4 ((k : Nat) : Int) 0 [b0, b1, b2, b3]).map beUint64 =
      some (truncKeep (ipV4Value b0 b1 b2 b3) 32 (8 * k)) := by
  interval_cases k <;>
    (repeat rw [beWriteLoop_cons_lt _ _ _ _ _ _ (by decide) (by simp)]) <;>
    (try rw [beWriteLoop_cons_ge _ _ _ _ _ _ (by decide)]) <;>
    (try rw [beWriteLoop_nil]) <;>
    simp only [Option.map_some', Option.some.injEq] <;>
    simp only [List.replicate, List.set, beUint64, List.foldl, truncKeep, ipV4Value] <;>
    (try norm_num) <;>
    omega

/-- Value computed by the IPv6 branch for an in-range byte count `k`: the
key keeps exactly the first `k` bytes, i.e. the first `8 * k` bits, of the
address's top 64 bits. -/
theorem beWriteLoop_v6_value (b0 b1 b2 b3 b4 b5 b6 b7 b8 b9 b10 b11 b12 b13 b14 b15 : Nat)
    (h0 : b0 < 256) (h1 : b1 < 256) (h2 : b2 < 256) (h3 : b3 < 256)
    (h4 : b4 < 256) (h5 : b5 < 256) (h6 : b6 < 256) (h7 : b7 < 256) (k : Nat) (hk : k ≤ 8) :
    (beWriteLoop (List.replicate 8 0) 0 ((k : Nat) : Int) 0
        [b0, b1, b2, b3, b4, b5, b6, b7, b8, b9, b10, b11, b12, b13, b14, b15]).map beUint64 =
      some (truncKeep (ipV6TopValue b0 b1 b2 b3 b4 b5 b6 b7) 64 (8 * k)) := by
  interval_cases k <;>
    (repeat rw [beWriteLoop_cons_lt _ _ _ _ _ _ (by decide) (by simp)]) <;>
    (try rw [beWriteLoop_cons_ge _ _ _ _ _ _ (by decide)]) <;>
    (try rw [beWriteLoop_nil]) <;>
    simp only [Option.map_some', Option.some.injEq] <;>
    simp only [List.replicate, List.set, beUint64, List.foldl, truncKeep, ipV6TopValue] <;>
    (try norm_num) <;>
    omega

/-- Byte-granular truncation never exceeds the original value. -/
theorem truncKeep_le (v w n : Nat) : truncKeep v w n ≤ v := Nat.div_mul_le_self v _

/-- Go's `int64(u)` conversion is the identity below `2^63`. -/
theorem int64OfUint64_of_lt (n : Nat) (h : n < 2 ^ 63) : int64OfUint64 n = (n : Int) := by
  have hm : n % 2 ^ 64 = n := Nat.mod_eq_of_lt (by omega)
  rw [int64OfUint64, hm, if_pos h]

/-- `IpToInt64` on an IPv4 address with an in-range bits argument computes
the byte-granular key: zero everything beyond the first
`8 * (bits / 8)` bits of the 32-bit address value. -/
theorem ipToInt64_v4_eval (b0 b1 b2 b3 : Nat)
    (h0 : b0 < 256) (h1 : b1 < 256) (h2 : b2 < 256) (h3 : b3 < 256)
    (bits v6bits : Int) (hb0 : 0 ≤ bits) (hb32 : bits ≤ 32) :
    IpToInt64 (.v4 b0 b1 b2 b3) bits v6bits =
      some (4, ((truncKeep (ipV4Value b0 b1 b2 b3) 32 (8 * (bits.toNat / 8)) : Nat) : Int)) := by
  obtain ⟨n, rfl⟩ := Int.eq_ofNat_of_zero_le hb0
  have hn32 : n ≤ 32 := by omega
  show (beWriteLoop (List.replicate 8 0) 4 (Int.tdiv (Int.ofNat n) 8) 0 [b0, b1, b2, b3]).map
      (fun be => ((4 : Int), int64OfUint64 (beUint64 be))) = _
  rw [tdiv_ofNat_eight, Int.ofNat_eq_natCast]
  have hv := beWriteLoop_v4_value b0 b1 b2 b3 h0 h1 h2 h3 (n / 8) (by omega)
  rcases hl : beWriteLoop (List.replicate 8 0) 4 ((n / 8 : Nat) : Int) 0 [b0, b1, b2, b3] with _ | be
  · rw [hl] at hv; cases hv
  · rw [hl] at hv
    simp only [Option.map_some', Option.some.injEq] at hv ⊢
    rw [hv]
    have hlt : truncKeep (ipV4Value b0 b1 b2 b3) 32 (8 * (n / 8)) < 2 ^ 63 := by
      have h := truncKeep_le (ipV4Value b0 b1 b2 b3) 32 (8 * (n / 8))
      unfold ipV4Value at h ⊢
      omega
    rw [int64OfUint64_of_lt _ hlt, Int.toNat_natCast]

/-- `IpToInt64` on an IPv6 address with an in-range bits argument computes
the byte-granular key over the address's top 64 bits. -/
theorem ipToInt64_v6_eval (b0 b1 b2 b3 b4 b5 b6 b7 b8 b9 b10 b11 b12 b13 b14 b15 : Nat)
    (h0 : b0 < 256) (h1 : b1 < 256) (h2 : b2 < 256) (h3 : b3 < 256)
    (h4 : b4 < 256) (h5 : b5 < 256) (h6 : b6 < 256) (h7 : b7 < 256)
    (v4bits bits : Int) (hb0 : 0 ≤ bits) (hb64 : bits ≤ 64) :
    IpToInt64 (.v6 b0 b1 b2 b3 b4 b5 b6 b7 b8 b9 b10 b11 b12 b13 b14 b15) v4bits bits =
      some (6, int64OfUint64
        (truncKeep (ipV6TopValue b0 b1 b2 b3 b4 b5 b6 b7) 64 (8 * (bits.toNat / 8)))) := by
  obtain ⟨n, rfl⟩ := Int.eq_ofNat_of_zero_le hb0
  have hn64 : n ≤ 64 := by omega
  show (beWriteLoop (List.replicate 8 0) 0 (Int.tdiv (Int.ofNat n) 8) 0
      [b0, b1, b2, b3, b4, b5, b6, b7, b8, b9, b10, b11, b12, b13, b14, b15]).map
      (fun be => ((6 : Int), int64OfUint64 (beUint64 be))) = _
  rw [tdiv_ofNat_eight, Int.ofNat_eq_natCast]
  have hv := beWriteLoop_v6_value b0 b1 b2 b3 b4 b5 b6 b7 b8 b9 b10 b11 b12 b13 b14 b15
    h0 h1 h2 h3 h4 h5 h6 h7 (n / 8) (by omega)
  rcases hl : beWriteLoop (List.replicate 8 0) 0 ((n / 8 : Nat) : Int) 0
      [b0, b1, b2, b3, b4, b5, b6, b7, b8, b9, b10, b11, b12, b13, b14, b15] with _ | be
  · rw [hl] at hv; cases hv
  · rw [hl] at hv
    simp only [Option.map_some', Option.some.injEq] at hv ⊢
    rw [hv, Int.toNat_natCast]

/-- Keys computed from a common prefix agree: if two values agree on their
first `n` of `w` bits, they agree after truncation to any `M ≤ n` bits. -/
theorem truncKeep_of_div_eq (v1 v2 w n M : Nat) (hM : M ≤ n) (hn : n ≤ w)
    (h : v1 / 2 ^ (w - n) = v2 / 2 ^ (w - n)) : truncKeep v1 w M = truncKeep v2 w M := by
  have hpow : (2 : Nat) ^ (w - M) = 2 ^ (w - n) * 2 ^ (n - M) := by
    rw [← pow_add]
    congr 1
    omega
  unfold truncKeep
  rw [hpow, ← Nat.div_div_eq_div_mul, ← Nat.div_div_eq_div_mul, h]

/-! ## C7 amended -/

/-- C7 (amended): for every IP address and in-range significant-bit counts,
`IpToInt64` produces the `(version, integer)` key obtained by zeroing the
bits of the address beyond the first `8 * (bits / 8)` bits — byte
granularity, not bit granularity (the counterexample
forces the change for counts that are not multiples of 8) — and
consequently two same-family addresses that agree on their first
significant-bit-count bits (differ only beyond them) still map to the same
key, the truncation being coarser. -/
theorem c7_amended_byte_granular (addr : IpAddr) (v4Bits v6Bits : Int)
    (hvalid : ipBytesValid addr) (h40 : 0 ≤ v4Bits) (h432 : v4Bits ≤ 32)
    (h60 : 0 ≤ v6Bits) (h664 : v6Bits ≤ 64) :
    IpToInt64 addr v4Bits v6Bits =
      some (ipKeyBitExact addr (8 * (v4Bits.toNat / 8)) (8 * (v6Bits.toNat / 8))) ∧
    (∀ addr2 : IpAddr, ipBytesValid addr2 →
      ipAgreeOnBits addr addr2 v4Bits.toNat v6Bits.toNat →
      IpToInt64 addr v4Bits v6Bits = IpToInt64 addr2 v4Bits v6Bits) := by
  have h432n : v4Bits.toNat ≤ 32 := by omega
  have h664n : v6Bits.toNat ≤ 64 := by omega
  constructor
  · match addr with
    | .v4 b0 b1 b2 b3 =>
      obtain ⟨h0, h1, h2, h3⟩ := hvalid
      rw [ipToInt64_v4_eval b0 b1 b2 b3 h0 h1 h2 h3 v4Bits v6Bits h40 h432]
      rfl
    | .v6 b0 b1 b2 b3 b4 b5 b6 b7 b8 b9 b10 b11 b12 b13 b14 b15 =>
      obtain ⟨h0, h1, h2, h3, h4, h5, h6, h7, _⟩ := hvalid
      rw [ipToInt64_v6_eval b0 b1 b2 b3 b4 b5 b6 b7 b8 b9 b10 b11 b12 b13 b14 b15
        h0 h1 h2 h3 h4 h5 h6 h7 v4Bits v6Bits h60 h664]
      rfl
  · intro addr2 hvalid2 hagree
    match addr, addr2 with
    | .v4 b0 b1 b2 b3, .v4 c0 c1 c2 c3 =>
      obtain ⟨h0, h1, h2, h3⟩ := hvalid
      obtain ⟨g0, g1, g2, g3⟩ := hvalid2
      rw [ipToInt64_v4_eval b0 b1 b2 b3 h0 h1 h2 h3 v4Bits v6Bits h40 h432,
          ipToInt64_v4_eval c0 c1 c2 c3 g0 g1 g2 g3 v4Bits v6Bits h40 h432]
      have ht := truncKeep_of_div_eq (ipV4Value b0 b1 b2 b3) (ipV4Value c0 c1 c2 c3)
        32 v4Bits.toNat (8 * (v4Bits.toNat / 8)) (by omega) h432n hagree
      rw [ht]
    | .v4 b0 b1 b2 b3, .v6 c0 c1 c2 c3 c4 c5 c6 c7 c8 c9 c10 c11 c12 c13 c14 c15 =>
      exact hagree.elim
    | .v6 b0 b1 b2 b3 b4 b5 b6 b7 b8 b9 b10 b11 b12 b13 b14 b15, .v4 c0 c1 c2 c3 =>
      exact hagree.elim
    | .v6 b0 b1 b2 b3 b4 b5 b6 b7 b8 b9 b10 b11 b12 b13 b14 b15,
        .v6 c0 c1 c2 c3 c4 c5 c6 c7 c8 c9 c10 c11 c12 c13 c14 c15 =>
      obtain ⟨h0, h1, h2, h3, h4, h5, h6, h7, _⟩ := hvalid
      obtain ⟨g0, g1, g2, g3, g4, g5, g6, g7, _⟩ := hvalid2
      rw [ipToInt64_v6_eval b0 b1 b2 b3 b4 b5 b6 b7 b8 b9 b10 b11 b12 b13 b14 b15
            h0 h1 h2 h3 h4 h5 h6 h7 v4Bits v6Bits h60 h664,
          ipToInt64_v6_eval c0 c1 c2 c3 c4 c5 c6 c7 c8 c9 c10 c11 c12 c13 c14 c15
            g0 g1 g2 g3 g4 g5 g6 g7 v4Bits v6Bits h60 h664]
      have ht := truncKeep_of_div_eq (ipV6TopValue b0 b1 b2 b3 b4 b5 b6 b7)
        (ipV6TopValue c0 c1 c2 c3 c4 c5 c6 c7)
        64 v6Bits.toNat (8 * (v6Bits.toNat / 8)) (by omega) h664n hagree
      rw [ht]

/-- C7 witness: the amended claim instantiated at `10.128.0.0` with 12
significant IPv4 bits: the key equals the bit-exact key taken at
`8 * (12 / 8) = 8` bits. -/
theorem c7_witness :
    ipBytesValid (.v4 10 128 0 0) ∧
    IpToInt64 (.v4 10 128 0 0) 12 64 =
      some (ipKeyBitExact (.v4 10 128 0 0) (8 * ((12 : Int).toNat / 8)) (8 * ((64 : Int).toNat / 8))) :=
  ⟨by simp only [ipBytesValid]; decide,
   (c7_amended_byte_granular (.v4 10 128 0 0) 12 64 (by simp only [ipBytesValid]; decide)
     (by decide) (by decide) (by decide) (by decide)).1⟩

/-! ## C10 amended -/

/-- C10 (amended): `IpToInt64` never panics on an IPv4 address, whatever
the two bits arguments (negative included); on an IPv6 address it returns a
result exactly when `ipV6SignificantBits < 72` (the documented range is
0..64; from 72 up the loop indexes past the 8-byte buffer and panics, so
the function is not total as the claim stated — `none` models the
panic). -/
theorem c10_amended_totality (a0 a1 a2 a3 : Nat)
    (b0 b1 b2 b3 b4 b5 b6 b7 b8 b9 b10 b11 b12 b13 b14 b15 : Nat) (v4Bits v6Bits : Int) :
    (IpToInt64 (.v4 a0 a1 a2 a3) v4Bits v6Bits).isSome = true ∧
    ((IpToInt64 (.v6 b0 b1 b2 b3 b4 b5 b6 b7 b8 b9 b10 b11 b12 b13 b14 b15)
        v4Bits v6Bits).isSome = true ↔ v6Bits < 72) := by
  constructor
  · show ((beWriteLoop (List.replicate 8 0) 4 (Int.tdiv v4Bits 8) 0 [a0, a1, a2, a3]).map
      (fun be => ((4 : Int), int64OfUint64 (beUint64 be)))).isSome = true
    rw [Option.isSome_map']
    exact beWriteLoop_v4_isSome [a0, a1, a2, a3] 0 _ _ (by simp) (by simp)
  · show ((beWriteLoop (List.replicate 8 0) 0 (Int.tdiv v6Bits 8) 0
        [b0, b1, b2, b3, b4, b5, b6, b7, b8, b9, b10, b11, b12, b13, b14, b15]).map
      (fun be => ((6 : Int), int64OfUint64 (beUint64 be)))).isSome = true ↔ v6Bits < 72
    rw [Option.isSome_map']
    constructor
    · intro h
      by_contra h72
      have hbc : 9 ≤ Int.tdiv v6Bits 8 := by
        by_contra hlt
        exact h72 ((tdiv_eight_le_eight_iff v6Bits).mp (by omega))
      rw [beWriteLoop_v6_none _ 0 _ _ (by simp) hbc (by omega) (by simp)] at h
      cases h
    · intro h72
      exact beWriteLoop_v6_some _ 0 _ _ (by simp) ((tdiv_eight_le_eight_iff v6Bits).mpr h72)
